import Mathlib

/-!
# Verification of the ganttmulti working-calendar core

Shallow embedding of the calendar engine in `src/components/gantt/TaskItem.tsx`
(date helpers, Japanese-holiday calculator, workday predicate, workday span
calculator, end-date projector, time-unit stepper) and of the drag-commit
computations in `src/hooks/useGanttDrag.ts`.

Modelling conventions:
* A calendar date (a JS `Date` at local midnight) is an `Int`: the number of
  days since 0000-03-01 in the proleptic Gregorian calendar.  `getDay`,
  year extraction and date construction use the standard civil-calendar
  algorithms.  The `"YYYY-MM-DD"` strings used as set elements in the source
  are identified with the day numbers they denote; holiday-set entries whose
  month/day components do not form a real date (possible only for the equinox
  entries of far-away years) are omitted, since such strings never compare
  equal to `formatDate` of any real date and are skipped by the
  `getDay() === 0` test, hence are observationally inert.
* JS numbers appearing in half-day arithmetic are modelled as `ℚ` (they are
  exact in binary floating point at this scale); `Math.round` is
  `⌊x + 1/2⌋` (round half towards +∞), `Math.floor` is `⌊·⌋`.
* The `while` loop of `calculateEndDate` does not terminate when the
  configuration admits no working day at all, so it is given explicit fuel
  and returns `none` when the fuel is exhausted; every terminating run of the
  source corresponds to a sufficiently large fuel.
-/

namespace Ganttmulti

/-- AM/PM half-day timing of a `CalendarPoint`. -/
inductive Timing where
  | AM : Timing
  | PM : Timing
deriving DecidableEq

/-- Model of `WorkdayConfig` from `src/types.ts`: one flag per weekday plus the
national-holiday and custom-holiday flags (`true` = working). -/
structure WorkdayConfig where
  monday : Bool
  tuesday : Bool
  wednesday : Bool
  thursday : Bool
  friday : Bool
  saturday : Bool
  sunday : Bool
  holidays : Bool
  custom : Bool
deriving DecidableEq

/-- The part of `AppSettings` (`src/types.ts`) read by the calendar core.
`customHolidays` / `customEvents` are the date-string lists, as day numbers. -/
structure AppSettings where
  workdayConfig : WorkdayConfig
  customHolidays : List Int
  customEvents : List Int
deriving DecidableEq

/-- JS `Date.prototype.getDay`: weekday of a day number, `0` = Sunday.
Day 0 (0000-03-01) is a Wednesday. -/
def getDay (n : Int) : Int := (n + 3).emod 7

/-- Day number of the civil date `(y, m, d)` (proleptic Gregorian,
days since 0000-03-01); standard era-based algorithm. -/
def daysFromCivil (y m d : Int) : Int :=
  let y2 : Int := if m ≤ 2 then y - 1 else y
  let era : Int := y2.fdiv 400
  let yoe : Int := y2 - era * 400
  let mp : Int := (m + 9).emod 12
  let doy : Int := (153 * mp + 2).fdiv 5 + d - 1
  let doe : Int := yoe * 365 + yoe.fdiv 4 - yoe.fdiv 100 + doy
  era * 146097 + doe

/-- JS `Date.prototype.getFullYear` of a day number: the civil year,
by the standard inverse algorithm. -/
def yearOfDay (z : Int) : Int :=
  let era : Int := z.fdiv 146097
  let doe : Int := z - era * 146097
  let yoe : Int := (doe - doe.fdiv 1460 + doe.fdiv 36524 - doe.fdiv 146096).fdiv 365
  let doy : Int := doe - (365 * yoe + yoe.fdiv 4 - yoe.fdiv 100)
  let mp : Int := (5 * doy + 2).fdiv 153
  let m : Int := if mp < 10 then mp + 3 else mp - 9
  if m ≤ 2 then era * 400 + yoe + 1 else era * 400 + yoe

/-- Model of `getVernalEquinoxDay` from `TaskItem.tsx`:
`floor(20.8431 + 0.242194 * (year - 1980) - floor((year - 1980) / 4))`,
with the arithmetic taken exactly (`20.8431 = 20843100/10^6`,
`0.242194 = 242194/10^6`) and the outer rational floor folded into integer
floor division. -/
def getVernalEquinoxDay (year : Int) : Int :=
  (20843100 + 242194 * (year - 1980)).fdiv 1000000 - (year - 1980).fdiv 4

/-- Model of `getAutumnalEquinoxDay` from `TaskItem.tsx`:
`floor(23.2488 + 0.242194 * (year - 1980) - floor((year - 1980) / 4))`,
modelled exactly like `getVernalEquinoxDay`. -/
def getAutumnalEquinoxDay (year : Int) : Int :=
  (23248800 + 242194 * (year - 1980)).fdiv 1000000 - (year - 1980).fdiv 4

/-- The `addHappyMonday` targets of `getHolidaysForYear`: day number of the
`weekNum`-th Monday of the given month. -/
def happyMonday (year month weekNum : Int) : Int :=
  let firstDay : Int := getDay (daysFromCivil year month 1)
  let firstMondayDate : Int := 1 + (1 - firstDay + 7).emod 7
  daysFromCivil year month (firstMondayDate + (weekNum - 1) * 7)

/-- The base holiday set built by `getHolidaysForYear` before substitutes and
citizens' holidays: ten fixed dates, the two equinox days (kept only when the
month/day pair denotes a real date, see the header), and four happy Mondays. -/
def baseHolidays (year : Int) : List Int :=
  [daysFromCivil year 1 1, daysFromCivil year 2 11, daysFromCivil year 2 23,
   daysFromCivil year 4 29, daysFromCivil year 5 3, daysFromCivil year 5 4,
   daysFromCivil year 5 5, daysFromCivil year 8 11, daysFromCivil year 11 3,
   daysFromCivil year 11 23]
  ++ (let vd := getVernalEquinoxDay year
      if 1 ≤ vd ∧ vd ≤ 31 then [daysFromCivil year 3 vd] else [])
  ++ (let ad := getAutumnalEquinoxDay year
      if 1 ≤ ad ∧ ad ≤ 30 then [daysFromCivil year 9 ad] else [])
  ++ [happyMonday year 1 2, happyMonday year 7 3, happyMonday year 9 3,
      happyMonday year 10 2]

/-- The `while (holidays.has(formatDate(nextDay)))` search: first day `≥ d`
not in `hs`, with explicit fuel (the source loop always terminates because
the holiday set is finite; `substSearchFuel` below is provably enough). -/
def firstNotIn (hs : List Int) : Nat → Int → Int
  | 0, d => d
  | fuel + 1, d => if d ∈ hs then firstNotIn hs fuel (d + 1) else d

/-- Fuel that provably suffices for `firstNotIn`: one more than the number of
distinct elements of the set being skipped. -/
def substSearchFuel (hs : List Int) : Nat := hs.dedup.length + 1

/-- Substitute holiday generated by a base holiday `d`: the first subsequent
date not already in the base holiday set. -/
def substituteOf (year d : Int) : Int :=
  firstNotIn (baseHolidays year) (substSearchFuel (baseHolidays year)) (d + 1)

/-- The substitute-holiday set of `getHolidaysForYear`: one substitute for
each base holiday falling on a Sunday.  (The source iterates the sorted base
set, but each substitute is determined by the fixed base set alone, so the
iteration order is irrelevant.) -/
def substituteHolidays (year : Int) : List Int :=
  ((baseHolidays year).filter (fun d => getDay d = 0)).map
    (fun d => substituteOf year d)

/-- The citizens' ("sandwich") holiday rule of `getHolidaysForYear`: when the
autumnal equinox falls exactly two days after Respect-for-the-Aged Day, the
day between them becomes a holiday unless it already is one. -/
def citizensHolidays (year : Int) : List Int :=
  let combined := baseHolidays year ++ substituteHolidays year
  let firstDaySep : Int := getDay (daysFromCivil year 9 1)
  let firstMondaySep : Int := 1 + (1 - firstDaySep + 7).emod 7
  let respectAgedDay : Int := firstMondaySep + 14
  let autumnDay : Int := getAutumnalEquinoxDay year
  if autumnDay - respectAgedDay = 2 then
    let sandwich := daysFromCivil year 9 (respectAgedDay + 1)
    if sandwich ∈ combined then [] else [sandwich]
  else []

/-- Model of `getHolidaysForYear` from `TaskItem.tsx`: base holidays, substitutes and
citizens' holidays (as a membership-equivalent list instead of a `Set`). -/
def getHolidaysForYear (year : Int) : List Int :=
  baseHolidays year ++ substituteHolidays year ++ citizensHolidays year

/-- The weekday branch of `isWorkday` (`TaskItem.tsx`): the chain of
`if (day === k)` tests ending in `return true`. -/
def weekdayFlag (cfg : WorkdayConfig) (day : Int) : Bool :=
  if day = 0 then cfg.sunday
  else if day = 6 then cfg.saturday
  else if day = 1 then cfg.monday
  else if day = 2 then cfg.tuesday
  else if day = 3 then cfg.wednesday
  else if day = 4 then cfg.thursday
  else if day = 5 then cfg.friday
  else true

/-- Model of `isWorkday` from `TaskItem.tsx`: custom holidays first, then national
holidays of the date's year, then the weekday flags. -/
def isWorkday (date : Int) (s : AppSettings) : Bool :=
  if date ∈ s.customHolidays then s.workdayConfig.custom
  else if date ∈ getHolidaysForYear (yearOfDay date) then s.workdayConfig.holidays
  else weekdayFlag s.workdayConfig (getDay date)

/-- The counting loop of `calculateWorkdays`, indexed by the number of
remaining iterations (`current` runs over `n` consecutive days). -/
def countWorkAux (s : AppSettings) : Int → Nat → Nat
  | _, 0 => 0
  | cur, n + 1 => (if isWorkday cur s then 1 else 0) + countWorkAux s (cur + 1) n

/-- Number of working days in `[a, b]` (inclusive), as counted by the
`while (current <= endDate)` loop of `calculateWorkdays`. -/
def countWork (s : AppSettings) (a b : Int) : Nat :=
  countWorkAux s a (b + 1 - a).toNat

/-- The final `Math.max(0, count)` clamp, written as a conditional so that it
evaluates by kernel reduction. -/
def clampNonneg (x : ℚ) : ℚ := if x < 0 then 0 else x

/-- Model of `calculateWorkdays` from `TaskItem.tsx` (the Workday Span Calculator), as
implemented: returns 0 on an inverted range, counts working days inclusively,
then subtracts 0.5 for a PM start and 0.5 for an AM end with NO working-day
guard on either subtraction, and clamps at 0. -/
def calculateWorkdays (start endD : Int) (s : AppSettings)
    (startTime endTime : Timing) : ℚ :=
  if start > endD then 0
  else
    clampNonneg ((countWork s start endD : ℚ)
      - (if startTime = Timing.PM then 1/2 else 0)
      - (if endTime = Timing.AM then 1/2 else 0))

/-- The guarded span calculator from `src/repro_standalone.ts` (the project's
own regression script, matching the spec's §4.3): identical to
`calculateWorkdays` except that each 0.5 subtraction is applied only when the
corresponding endpoint date is itself a working day. -/
def calculateWorkdaysGuarded (start endD : Int) (s : AppSettings)
    (startTime endTime : Timing) : ℚ :=
  if start > endD then 0
  else
    clampNonneg ((countWork s start endD : ℚ)
      - (if startTime = Timing.PM ∧ isWorkday start s then 1/2 else 0)
      - (if endTime = Timing.AM ∧ isWorkday endD s then 1/2 else 0))

/-- The `while (remaining > 0)` loop of `calculateEndDate`, with fuel
(`none` = the source loop would still be running after `fuel` iterations). -/
def endLoop (s : AppSettings) : Nat → ℚ → Int → Option (Int × Timing)
  | 0, remaining, current =>
      if remaining > 0 then none else some (current, Timing.PM)
  | fuel + 1, remaining, current =>
      if remaining > 0 then
        if isWorkday (current + 1) s then
          if remaining ≤ 1/2 then some (current + 1, Timing.AM)
          else endLoop s fuel (remaining - 1) (current + 1)
        else endLoop s fuel remaining (current + 1)
      else some (current, Timing.PM)

/-- Model of `calculateEndDate` from `TaskItem.tsx` (the End-Date Projector): consume
the start day's capacity (1.0 for a working AM start, 0.5 for a working PM
start, nothing for a non-working start) and then walk forward with `endLoop`. -/
def calculateEndDate (startDate : Int) (workdays : ℚ) (s : AppSettings)
    (startTiming : Timing) (fuel : Nat) : Option (Int × Timing) :=
  if isWorkday startDate s then
    if startTiming = Timing.AM then
      if workdays ≤ 1/2 then some (startDate, Timing.AM)
      else endLoop s fuel (workdays - 1) startDate
    else
      if workdays ≤ 1/2 then some (startDate, Timing.PM)
      else endLoop s fuel (workdays - 1/2) startDate
  else endLoop s fuel workdays startDate

/-- JS `Math.round`: round half towards positive infinity. -/
def jsRound (x : ℚ) : Int := ⌊x + 1/2⌋

/-- One forward half-day step of `addTimeUnits`: AM becomes PM on the same
date, PM becomes AM of the next date. -/
def halfStepF : Int × Timing → Int × Timing
  | (d, Timing.AM) => (d, Timing.PM)
  | (d, Timing.PM) => (d + 1, Timing.AM)

/-- One backward half-day step of `addTimeUnits`: PM becomes AM on the same
date, AM becomes PM of the previous date. -/
def halfStepB : Int × Timing → Int × Timing
  | (d, Timing.PM) => (d, Timing.AM)
  | (d, Timing.AM) => (d - 1, Timing.PM)

/-- The two `for` loops of `addTimeUnits`: walk `steps` half-day steps
forward when positive, `|steps|` backward when negative. -/
def halfWalk (steps : Int) (p : Int × Timing) : Int × Timing :=
  if steps > 0 then halfStepF^[steps.toNat] p
  else if steps < 0 then halfStepB^[(-steps).toNat] p
  else p

/-- Model of `addTimeUnits` from `TaskItem.tsx` (the Time-Unit Stepper): at
`minDayUnit ≥ 1` add `Math.round(deltaDays)` whole days with the timing
unchanged; otherwise convert to half-day steps via `Math.round(deltaDays/0.5)`
and walk the (date, timing) pair one half-day at a time. -/
def addTimeUnits (date : Int) (timing : Timing) (deltaDays minDayUnit : ℚ) :
    Int × Timing :=
  if minDayUnit ≥ 1 then (date + jsRound deltaDays, timing)
  else halfWalk (jsRound (deltaDays / (1/2))) (date, timing)

/-- The `resize-left` branch of `handleMouseMove` (`useGanttDrag.ts`): step
the start point, clamp the start date so it never passes the fixed end date;
returns ((startDate, startTime), (endDate, endTime)). -/
def resizeLeftMove (origStart origEnd : Int) (origStartTime origEndTime : Timing)
    (deltaDays minDayUnit : ℚ) : (Int × Timing) × (Int × Timing) :=
  let stepped := addTimeUnits origStart origStartTime deltaDays minDayUnit
  let newStart := if stepped.1 > origEnd then origEnd else stepped.1
  ((newStart, stepped.2), (origEnd, origEndTime))

/-- The `resize-right` branch of `handleMouseMove` (`useGanttDrag.ts`): step
the end point, clamp the end date so it never passes the fixed start date. -/
def resizeRightMove (origStart origEnd : Int) (origStartTime origEndTime : Timing)
    (deltaDays minDayUnit : ℚ) : (Int × Timing) × (Int × Timing) :=
  let stepped := addTimeUnits origEnd origEndTime deltaDays minDayUnit
  let newEnd := if stepped.1 < origStart then origStart else stepped.1
  ((origStart, origStartTime), (newEnd, stepped.2))

/-- A per-item snapshot captured at pointer-down (`initialSnapshots` in
`useGanttDrag.ts`): original start/end dates, timings, and cached span. -/
structure Snapshot where
  start : Int
  endD : Int
  startTime : Timing
  endTime : Timing
  workdays : ℚ
deriving DecidableEq

/-- The aggregate delta of a bulk `move` commit (`handleMouseUp`,
`useGanttDrag.ts` lines 211-214): whole-day difference of the grabbed item's
start plus the half-day timing adjustment. -/
def bulkMoveTotalDelta (currentStart origStart : Int)
    (currentStartTime origStartTime : Timing) : ℚ :=
  ((currentStart - origStart : Int) : ℚ)
    + ((if currentStartTime = Timing.PM then (1 : ℚ)/2 else 0)
        - (if origStartTime = Timing.PM then (1 : ℚ)/2 else 0))

/-- The per-snapshot update of a bulk `move` commit (`handleMouseUp`,
`useGanttDrag.ts` lines 219-230): step the snapshot's start by the aggregate
delta; when the snapshot carries a (truthy) cached span, project the new end
from it, otherwise step the old end.  Returns (new start point, new end
point); `none` when the projector's loop would not terminate. -/
def bulkMoveItem (snap : Snapshot) (totalDelta : ℚ) (s : AppSettings)
    (minDayUnit : ℚ) (fuel : Nat) : Option ((Int × Timing) × (Int × Timing)) :=
  let st := addTimeUnits snap.start snap.startTime totalDelta minDayUnit
  if snap.workdays ≠ 0 then
    (calculateEndDate st.1 snap.workdays s st.2 fuel).map (fun e => (st, e))
  else
    some (st, addTimeUnits snap.endD snap.endTime totalDelta minDayUnit)

/-- Settings used in concrete witnesses: weekdays working, weekends,
national holidays and custom holidays non-working, no custom dates
(the configuration of the repository's regression scripts). -/
def weekendOffSettings : AppSettings :=
  { workdayConfig :=
      { monday := true, tuesday := true, wednesday := true, thursday := true,
        friday := true, saturday := false, sunday := false,
        holidays := false, custom := false },
    customHolidays := [], customEvents := [] }

/-- Settings for the custom-holiday witness: like `weekendOffSettings` but
with 2024-02-18 registered as a custom holiday and the `custom` flag set. -/
def customHolidaySettings : AppSettings :=
  { workdayConfig :=
      { monday := true, tuesday := true, wednesday := true, thursday := true,
        friday := true, saturday := false, sunday := false,
        holidays := false, custom := true },
    customHolidays := [739239], customEvents := [] }

/-! ## Helper lemmas -/

lemma endLoop_nonpos (s : AppSettings) (fuel : Nat) (r : ℚ) (cur : Int)
    (hr : ¬ r > 0) : endLoop s fuel r cur = some (cur, Timing.PM) := by
  cases fuel <;> simp [endLoop, hr]

lemma endLoop_le (s : AppSettings) :
    ∀ (fuel : Nat) (r : ℚ) (cur D : Int) (T : Timing),
      endLoop s fuel r cur = some (D, T) → cur ≤ D := by
  intro fuel
  induction fuel with
  | zero =>
    intro r cur D T h
    rw [endLoop] at h
    split at h
    · exact absurd h (by simp)
    · obtain ⟨h1, h2⟩ : cur = D ∧ Timing.PM = T := by simpa using h
      omega
  | succ fuel ih =>
    intro r cur D T h
    rw [endLoop] at h
    split at h
    · split at h
      · split at h
        · obtain ⟨h1, h2⟩ : cur + 1 = D ∧ Timing.AM = T := by simpa using h
          omega
        · have := ih _ _ _ _ h
          omega
      · have := ih _ _ _ _ h
        omega
    · obtain ⟨h1, h2⟩ : cur = D ∧ Timing.PM = T := by simpa using h
      omega

lemma countWork_step (s : AppSettings) {a b : Int} (h : a ≤ b) :
    countWork s a b = (if isWorkday a s then 1 else 0) + countWork s (a + 1) b := by
  have h1 : (b + 1 - a).toNat = (b + 1 - (a + 1)).toNat + 1 := by omega
  rw [countWork, h1, countWorkAux, countWork]

lemma countWork_self (s : AppSettings) (d : Int) :
    countWork s d d = if isWorkday d s then 1 else 0 := by
  have h1 : (d + 1 - d).toNat = 1 := by omega
  rw [countWork, h1, countWorkAux, countWorkAux]
  exact Nat.add_zero _

lemma clampNonneg_nonneg (x : ℚ) : 0 ≤ clampNonneg x := by
  rw [clampNonneg]
  split <;> linarith

lemma clampNonneg_of_nonneg {x : ℚ} (h : 0 ≤ x) : clampNonneg x = x := by
  rw [clampNonneg, if_neg (by linarith)]

/-! ### Concrete evaluations shared by witnesses
2024-02-18 (a Sunday) is day 739239, 2024-02-19 (a Monday) is day 739240. -/

lemma isWorkday_d18 : isWorkday 739239 weekendOffSettings = false := by decide

lemma isWorkday_d19 : isWorkday 739240 weekendOffSettings = true := by decide

lemma countWork_d18_d19 : countWork weekendOffSettings 739239 739240 = 1 := by
  decide

lemma countWork_d19_d19 : countWork weekendOffSettings 739240 739240 = 1 := by
  decide

lemma eval_span_d18_d19 :
    calculateWorkdays 739239 739240 weekendOffSettings Timing.PM Timing.PM
      = 1/2 := by
  rw [calculateWorkdays, if_neg (by decide), countWork_d18_d19, if_pos rfl,
    if_neg (by simp : ¬ (Timing.PM = Timing.AM))]
  norm_num [clampNonneg]

lemma eval_calcEnd_d18_pm1 :
    calculateEndDate 739239 1 weekendOffSettings Timing.PM 5
      = some (739240, Timing.PM) := by
  rw [calculateEndDate, if_neg (by simp [isWorkday_d18])]
  show endLoop weekendOffSettings (4 + 1) 1 739239 = some (739240, Timing.PM)
  rw [endLoop, if_pos (by norm_num : (1 : ℚ) > 0),
    if_pos (by decide : isWorkday (739239 + 1) weekendOffSettings = true),
    if_neg (by norm_num : ¬ (1 : ℚ) ≤ 1/2),
    show (1 : ℚ) - 1 = 0 from by norm_num,
    endLoop_nonpos weekendOffSettings 4 0 (739239 + 1) (by norm_num)]
  norm_num

/-! ## Claim theorems -/

/-- Claim C1 (code_bug): the implemented `calculateWorkdays` applies the PM-start
0.5 subtraction unconditionally, so on the regression input of the spec and of
`src/repro_standalone.ts` — start Sunday 2024-02-18 PM, end Monday 2024-02-19
PM, weekends/holidays non-working — it returns 0.5, not the 1.0 the claim
requires, whereas the guarded variant of the regression script returns 1.0. -/
theorem c1_halfday_guard_code_eval :
    calculateWorkdays 739239 739240 weekendOffSettings Timing.PM Timing.PM = 1/2 ∧
    calculateWorkdays 739239 739240 weekendOffSettings Timing.PM Timing.PM ≠ 1 ∧
    calculateWorkdaysGuarded 739239 739240 weekendOffSettings Timing.PM Timing.PM = 1 := by
  refine ⟨eval_span_d18_d19, by rw [eval_span_d18_d19]; norm_num, ?_⟩
  rw [calculateWorkdaysGuarded, if_neg (by decide), countWork_d18_d19,
    if_neg (by simp [isWorkday_d18] :
      ¬ (Timing.PM = Timing.PM ∧ isWorkday 739239 weekendOffSettings = true)),
    if_neg (by simp :
      ¬ (Timing.PM = Timing.AM ∧ isWorkday 739240 weekendOffSettings = true))]
  norm_num [clampNonneg]

/-- Claim C4 (counterexample): with zero span and a non-working start date
(Sunday 2024-02-18, weekends off) and AM start timing, `calculateEndDate`
returns the start date with timing PM, not the unchanged AM timing the claim
states. -/
theorem c4_zero_span_counterexample :
    calculateEndDate 739239 0 weekendOffSettings Timing.AM 3
        = some (739239, Timing.PM) ∧
    (739239, Timing.PM) ≠ ((739239 : Int), Timing.AM) := by
  refine ⟨?_, by decide⟩
  rw [calculateEndDate, if_neg (by simp [isWorkday_d18])]
  exact endLoop_nonpos weekendOffSettings 3 0 739239 (by norm_num)

/-- Claim C4 (amended): with zero span `calculateEndDate` always returns the
start date; the timing is the start timing when the start date is a working
day, and PM otherwise. -/
theorem c4_zero_span_amended (start : Int) (s : AppSettings) (timing : Timing)
    (fuel : Nat) :
    calculateEndDate start 0 s timing fuel
      = some (start, if isWorkday start s then timing else Timing.PM) := by
  by_cases hw : isWorkday start s
  · cases timing <;> simp [calculateEndDate, hw]
  · simp [calculateEndDate, hw]
    exact endLoop_nonpos s fuel 0 start (by norm_num)

/-- Claim C6: `isWorkday` resolves with first-match-wins precedence — custom
holidays decide via the `custom` flag, then national holidays of the date's
year via the `holidays` flag, then the weekday's own flag — and the
custom-event list never affects the result. -/
theorem c6_isWorkday_precedence (date : Int) (s : AppSettings) :
    (date ∈ s.customHolidays → isWorkday date s = s.workdayConfig.custom) ∧
    (date ∉ s.customHolidays →
      date ∈ getHolidaysForYear (yearOfDay date) →
        isWorkday date s = s.workdayConfig.holidays) ∧
    (date ∉ s.customHolidays →
      date ∉ getHolidaysForYear (yearOfDay date) →
        isWorkday date s = weekdayFlag s.workdayConfig (getDay date)) ∧
    (∀ events : List Int,
      isWorkday date
        { workdayConfig := s.workdayConfig, customHolidays := s.customHolidays,
          customEvents := events } = isWorkday date s) := by
  refine ⟨fun h1 => ?_, fun h1 h2 => ?_, fun h1 h2 => ?_, fun events => ?_⟩
  · rw [isWorkday, if_pos h1]
  · rw [isWorkday, if_neg h1, if_pos h2]
  · rw [isWorkday, if_neg h1, if_neg h2]
  · rfl

/-- Witness for C6: on a date registered as a custom holiday the result is
exactly the `custom` flag. -/
theorem c6_isWorkday_precedence_witness :
    isWorkday 739239 customHolidaySettings
      = customHolidaySettings.workdayConfig.custom :=
  (c6_isWorkday_precedence 739239 customHolidaySettings).1 (by decide)

/-- Claim C8: resize gestures clamp instead of rejecting — in `resize-right`
the stepped end date is replaced by the start date exactly when it would fall
before it (so the end never crosses the fixed start), and symmetrically for
`resize-left`; the fixed endpoint is never touched. -/
theorem c8_resize_clamped (origStart origEnd : Int) (st et : Timing)
    (delta g : ℚ) :
    ((addTimeUnits origEnd et delta g).1 < origStart →
        (resizeRightMove origStart origEnd st et delta g).2.1 = origStart) ∧
    (origStart ≤ (addTimeUnits origEnd et delta g).1 →
        (resizeRightMove origStart origEnd st et delta g).2.1
          = (addTimeUnits origEnd et delta g).1) ∧
    (resizeRightMove origStart origEnd st et delta g).1 = (origStart, st) ∧
    origStart ≤ (resizeRightMove origStart origEnd st et delta g).2.1 ∧
    (origEnd < (addTimeUnits origStart st delta g).1 →
        (resizeLeftMove origStart origEnd st et delta g).1.1 = origEnd) ∧
    ((addTimeUnits origStart st delta g).1 ≤ origEnd →
        (resizeLeftMove origStart origEnd st et delta g).1.1
          = (addTimeUnits origStart st delta g).1) ∧
    (resizeLeftMove origStart origEnd st et delta g).2 = (origEnd, et) ∧
    (resizeLeftMove origStart origEnd st et delta g).1.1 ≤ origEnd := by
  have hR : (resizeRightMove origStart origEnd st et delta g).2.1
      = if (addTimeUnits origEnd et delta g).1 < origStart then origStart
        else (addTimeUnits origEnd et delta g).1 := rfl
  have hL : (resizeLeftMove origStart origEnd st et delta g).1.1
      = if (addTimeUnits origStart st delta g).1 > origEnd then origEnd
        else (addTimeUnits origStart st delta g).1 := rfl
  refine ⟨fun h => ?_, fun h => ?_, rfl, ?_, fun h => ?_, fun h => ?_, rfl, ?_⟩
  · rw [hR, if_pos h]
  · rw [hR, if_neg (by omega)]
  · rw [hR]
    split <;> omega
  · rw [hL, if_pos h]
  · rw [hL, if_neg (by omega)]
  · rw [hL]
    split <;> omega

/-- Witness for C8: a `resize-right` pointer delta of −1 day from a
zero-length bar clamps the end back to the start. -/
theorem c8_resize_clamped_witness :
    (resizeRightMove 0 0 Timing.AM Timing.PM (-1) 1).2.1 = 0 :=
  (c8_resize_clamped 0 0 Timing.AM Timing.PM (-1) 1).1
    (by norm_num [addTimeUnits, jsRound])

/-- Claim C9: the Workday Span Calculator never returns a negative value, and
an inverted range (end date before start date) yields exactly 0. -/
theorem c9_span_nonneg (start endD : Int) (s : AppSettings) (t1 t2 : Timing) :
    0 ≤ calculateWorkdays start endD s t1 t2 ∧
      (endD < start → calculateWorkdays start endD s t1 t2 = 0) := by
  constructor
  · rw [calculateWorkdays]
    split
    · exact le_refl 0
    · exact clampNonneg_nonneg _
  · intro h
    rw [calculateWorkdays, if_pos (by omega : start > endD)]

/-- Witness for C9: an inverted one-day range returns 0. -/
theorem c9_span_nonneg_witness :
    calculateWorkdays 739240 739239 weekendOffSettings Timing.AM Timing.PM = 0 :=
  (c9_span_nonneg 739240 739239 weekendOffSettings Timing.AM Timing.PM).2 (by omega)

/-- Claim C10: whenever `calculateEndDate` returns a point (for any span ≥ 0 and
any fuel), the returned date is not before the start date. -/
theorem c10_end_not_before_start (start : Int) (timing : Timing)
    (s : AppSettings) (w : ℚ) (fuel : Nat) (D : Int) (T : Timing)
    (hw : 0 ≤ w)
    (h : calculateEndDate start w s timing fuel = some (D, T)) : start ≤ D := by
  rw [calculateEndDate] at h
  split at h
  · split at h
    · split at h
      · obtain ⟨h1, h2⟩ : start = D ∧ Timing.AM = T := by simpa using h
        omega
      · exact endLoop_le s fuel _ _ _ _ h
    · split at h
      · obtain ⟨h1, h2⟩ : start = D ∧ Timing.PM = T := by simpa using h
        omega
      · exact endLoop_le s fuel _ _ _ _ h
  · exact endLoop_le s fuel _ _ _ _ h

/-- Witness for C10: projecting one workday forward from Sunday 2024-02-18 PM
lands on Monday 2024-02-19, which is not before the start. -/
theorem c10_end_not_before_start_witness :
    calculateEndDate 739239 1 weekendOffSettings Timing.PM 5
        = some (739240, Timing.PM) ∧ (739239 : Int) ≤ 739240 :=
  ⟨eval_calcEnd_d18_pm1,
   c10_end_not_before_start 739239 Timing.PM weekendOffSettings 1 5 739240
     Timing.PM (by norm_num) eval_calcEnd_d18_pm1⟩

/-! ## Time-Unit Stepper lemmas (C5) -/

lemma jsRound_neg {x : ℚ} (h : Int.fract x ≠ 1/2) :
    jsRound (-x) = - jsRound x := by
  rw [jsRound, jsRound]
  have h1 : (⌊x + 1/2⌋ : ℚ) ≤ x + 1/2 := Int.floor_le _
  have h2 : x + 1/2 < ⌊x + 1/2⌋ + 1 := Int.lt_floor_add_one _
  have hne : x + 1/2 ≠ (⌊x + 1/2⌋ : ℚ) := by
    intro he
    apply h
    have hx : x = ((⌊x + 1/2⌋ - 1 : Int) : ℚ) + 1/2 := by push_cast; linarith
    rw [hx, Int.fract_int_add]
    exact Int.fract_eq_self.mpr ⟨by norm_num, by norm_num⟩
  have h1s : (⌊x + 1/2⌋ : ℚ) < x + 1/2 := lt_of_le_of_ne h1 (Ne.symm hne)
  rw [Int.floor_eq_iff]
  constructor
  · push_cast
    linarith
  · push_cast
    linarith

lemma halfStepB_halfStepF (p : Int × Timing) : halfStepB (halfStepF p) = p := by
  obtain ⟨d, t⟩ := p
  cases t <;> simp [halfStepF, halfStepB]

lemma halfStepF_halfStepB (p : Int × Timing) : halfStepF (halfStepB p) = p := by
  obtain ⟨d, t⟩ := p
  cases t <;> simp [halfStepF, halfStepB]

lemma halfWalk_neg (k : Int) (p : Int × Timing) :
    halfWalk (-k) (halfWalk k p) = p := by
  rcases lt_trichotomy k 0 with hk | rfl | hk
  · have hin : halfWalk k p = halfStepB^[(-k).toNat] p := by
      rw [halfWalk, if_neg (by omega), if_pos hk]
    have hout : halfWalk (-k) (halfStepB^[(-k).toNat] p)
        = halfStepF^[(-k).toNat] (halfStepB^[(-k).toNat] p) := by
      rw [halfWalk, if_pos (by omega : -k > 0)]
    rw [hin, hout]
    exact Function.LeftInverse.iterate halfStepF_halfStepB (-k).toNat p
  · simp [halfWalk]
  · have hin : halfWalk k p = halfStepF^[k.toNat] p := by
      rw [halfWalk, if_pos hk]
    have hout : halfWalk (-k) (halfStepF^[k.toNat] p)
        = halfStepB^[k.toNat] (halfStepF^[k.toNat] p) := by
      rw [halfWalk, if_neg (by omega), if_pos (by omega : -k < 0), neg_neg]
    rw [hin, hout]
    exact Function.LeftInverse.iterate halfStepB_halfStepF k.toNat p

/-- Claim C5 (counterexample): at granularity 1 a delta of +0.5 rounds up to one
day (JS `Math.round(0.5) = 1`) but −0.5 rounds to zero (`Math.round(-0.5) =
-0`), so stepping by +0.5 and then −0.5 lands one day late, not back at the
start. -/
theorem c5_step_self_inverse_counterexample :
    addTimeUnits (addTimeUnits 0 Timing.AM (1/2) 1).1
      (addTimeUnits 0 Timing.AM (1/2) 1).2 (-(1/2)) 1 ≠ ((0 : Int), Timing.AM) := by
  have h1 : addTimeUnits 0 Timing.AM (1/2) 1 = (1, Timing.AM) := by
    rw [addTimeUnits, if_pos (by norm_num : (1:ℚ) ≥ 1)]
    norm_num [jsRound]
  rw [h1]
  have h2 : addTimeUnits 1 Timing.AM (-(1/2)) 1 = (1, Timing.AM) := by
    rw [addTimeUnits, if_pos (by norm_num : (1:ℚ) ≥ 1)]
    norm_num [jsRound]
  rw [h2]
  simp

/-- Claim C5 (amended): the Time-Unit Stepper is self-inverse for every point
and every granularity in {1, 0.5}, provided the scaled delta is not exactly
half-way between two integers (where JS round-half-up is asymmetric):
stepping by `+d` and then `-d` returns the original point. -/
theorem c5_step_self_inverse_amended (date : Int) (timing : Timing) (d g : ℚ)
    (hg : g = 1 ∨ g = 1/2) (hd : Int.fract (d / g) ≠ 1/2) :
    addTimeUnits (addTimeUnits date timing d g).1
      (addTimeUnits date timing d g).2 (-d) g = (date, timing) := by
  rcases hg with rfl | rfl
  · have hd1 : Int.fract d ≠ 1/2 := by rwa [div_one] at hd
    have h1 : addTimeUnits date timing d 1 = (date + jsRound d, timing) := by
      rw [addTimeUnits, if_pos (by norm_num : (1:ℚ) ≥ 1)]
    rw [h1, addTimeUnits, if_pos (by norm_num : (1:ℚ) ≥ 1), jsRound_neg hd1]
    simp only [Prod.mk.injEq]
    exact ⟨by omega, trivial⟩
  · have h1 : addTimeUnits date timing d (1/2)
        = halfWalk (jsRound (d / (1/2))) (date, timing) := by
      rw [addTimeUnits, if_neg (by norm_num : ¬ ((1:ℚ)/2 ≥ 1))]
    rw [h1, addTimeUnits, if_neg (by norm_num : ¬ ((1:ℚ)/2 ≥ 1))]
    rw [show -d / (1/2) = -(d / (1/2)) from by ring, jsRound_neg hd]
    rw [Prod.mk.eta]
    exact halfWalk_neg _ _

/-- Witness for the amended C5: a whole-day delta at granularity 1 steps
forward one day and back to the original point. -/
theorem c5_step_self_inverse_amended_witness :
    addTimeUnits (addTimeUnits 10 Timing.AM 1 1).1
      (addTimeUnits 10 Timing.AM 1 1).2 (-1) 1 = ((10 : Int), Timing.AM) :=
  c5_step_self_inverse_amended 10 Timing.AM 1 1 (Or.inl rfl)
    (by norm_num [Int.fract])

/-! ## Substitute-holiday lemmas (C7) -/

lemma firstNotIn_ge (hs : List Int) :
    ∀ (fuel : Nat) (d : Int), d ≤ firstNotIn hs fuel d := by
  intro fuel
  induction fuel with
  | zero =>
    intro d
    rw [firstNotIn]
  | succ fuel ih =>
    intro d
    rw [firstNotIn]
    split
    · have := ih (d + 1)
      omega
    · exact le_refl d

lemma firstNotIn_congr :
    ∀ (fuel : Nat) (hs hs2 : List Int) (d : Int),
      (∀ y : Int, d ≤ y → (y ∈ hs ↔ y ∈ hs2)) →
      firstNotIn hs fuel d = firstNotIn hs2 fuel d := by
  intro fuel
  induction fuel with
  | zero => intro hs hs2 d hmem; rw [firstNotIn, firstNotIn]
  | succ fuel ih =>
    intro hs hs2 d hmem
    rw [firstNotIn, firstNotIn]
    by_cases hd : d ∈ hs
    · rw [if_pos hd, if_pos ((hmem d (le_refl d)).mp hd)]
      exact ih hs hs2 (d + 1) (fun y hy => hmem y (by omega))
    · rw [if_neg hd, if_neg (fun h => hd ((hmem d (le_refl d)).mpr h))]

lemma firstNotIn_not_mem :
    ∀ (fuel : Nat) (hs : List Int) (d : Int),
      hs.dedup.length < fuel → firstNotIn hs fuel d ∉ hs := by
  intro fuel
  induction fuel with
  | zero =>
    intro hs d h
    exact absurd h (Nat.not_lt_zero _)
  | succ fuel ih =>
    intro hs d h
    rw [firstNotIn]
    by_cases hd : d ∈ hs
    · rw [if_pos hd]
      have hdd : d ∈ hs.dedup := List.mem_dedup.mpr hd
      have hnd : hs.dedup.Nodup := List.nodup_dedup hs
      have hcongr : firstNotIn hs fuel (d + 1)
          = firstNotIn (hs.dedup.erase d) fuel (d + 1) := by
        apply firstNotIn_congr
        intro y hy
        constructor
        · intro hyhs
          exact (List.Nodup.mem_erase_iff hnd).mpr
            ⟨by omega, List.mem_dedup.mpr hyhs⟩
        · intro hyer
          exact List.mem_dedup.mp (List.mem_of_mem_erase hyer)
      rw [hcongr]
      have hlen : (hs.dedup.erase d).dedup.length < fuel := by
        rw [List.dedup_eq_self.mpr (List.Nodup.erase d hnd)]
        have h1 := List.length_erase_of_mem hdd
        have h2 := List.length_pos_of_mem hdd
        omega
      have hnm := ih (hs.dedup.erase d) (d + 1) hlen
      intro hmem2
      apply hnm
      have hge := firstNotIn_ge (hs.dedup.erase d) fuel (d + 1)
      exact (List.Nodup.mem_erase_iff hnd).mpr
        ⟨by omega, List.mem_dedup.mpr hmem2⟩
    · rw [if_neg hd]
      exact hd

lemma firstNotIn_min (hs : List Int) :
    ∀ (fuel : Nat) (d k : Int),
      d ≤ k → k < firstNotIn hs fuel d → k ∈ hs := by
  intro fuel
  induction fuel with
  | zero =>
    intro d k h1 h2
    rw [firstNotIn] at h2
    omega
  | succ fuel ih =>
    intro d k h1 h2
    rw [firstNotIn] at h2
    by_cases hd : d ∈ hs
    · rw [if_pos hd] at h2
      by_cases hk : k = d
      · rw [hk]
        exact hd
      · exact ih (d + 1) k (by omega) h2
    · rw [if_neg hd] at h2
      omega

/-- Claim C7: every base holiday that falls on a Sunday generates a substitute —
the first subsequent date not already in the base holiday set — and that
substitute is a member of `getHolidaysForYear`; it lies strictly after the
Sunday, it is itself not a base holiday, and all dates strictly between the
Sunday and it are base holidays (so it is the *first* such date). -/
theorem c7_substitute_holidays (year d : Int) (hd : d ∈ baseHolidays year)
    (hsun : getDay d = 0) :
    substituteOf year d ∈ getHolidaysForYear year ∧
    d < substituteOf year d ∧
    substituteOf year d ∉ baseHolidays year ∧
    (∀ k : Int, d < k → k < substituteOf year d → k ∈ baseHolidays year) := by
  refine ⟨?_, ?_, ?_, ?_⟩
  · have hsubs : substituteOf year d ∈ substituteHolidays year := by
      rw [substituteHolidays]
      exact List.mem_map.mpr
        ⟨d, List.mem_filter.mpr ⟨hd, by simp [hsun]⟩, rfl⟩
    rw [getHolidaysForYear]
    exact List.mem_append.mpr (Or.inl (List.mem_append.mpr (Or.inr hsubs)))
  · have := firstNotIn_ge (baseHolidays year)
      (substSearchFuel (baseHolidays year)) (d + 1)
    rw [substituteOf]
    omega
  · rw [substituteOf]
    exact firstNotIn_not_mem _ _ _ (by rw [substSearchFuel]; omega)
  · intro k h1 h2
    rw [substituteOf] at h2
    exact firstNotIn_min _ _ (d + 1) k (by omega) h2

/-- Witness for C7: 2024-02-11 (day 739232) is a base holiday falling on a
Sunday in 2024, and its substitute is in the computed holiday set. -/
theorem c7_substitute_holidays_witness :
    substituteOf 2024 739232 ∈ getHolidaysForYear 2024 :=
  (c7_substitute_holidays 2024 739232 (by decide) (by decide)).1

/-! ## Round-trip lemmas (C2) -/

/-- Loop invariant of `endLoop`: entering the projector's walking loop with a
positive half-unit budget `m/2` and exiting at `(D, T)` means `D` is the first
day after `cur` at which the cumulative working-day capacity reaches the
budget: the working days in `(cur, D]` hold `m` half-units, plus one unused
half-unit when the result timing is AM. -/
lemma endLoop_spec (s : AppSettings) :
    ∀ (fuel m : Nat) (cur D : Int) (T : Timing), 1 ≤ m →
      endLoop s fuel ((m : ℚ)/2) cur = some (D, T) →
      cur < D ∧ isWorkday D s = true ∧
        2 * countWork s (cur + 1) D
          = m + (if T = Timing.AM then 1 else 0) := by
  intro fuel
  induction fuel with
  | zero =>
    intro m cur D T hm h
    have hm1 : (1:ℚ) ≤ (m:ℚ) := by exact_mod_cast hm
    rw [endLoop, if_pos (by linarith : (0:ℚ) < (m:ℚ)/2)] at h
    exact absurd h (by simp)
  | succ fuel ih =>
    intro m cur D T hm h
    have hm1 : (1:ℚ) ≤ (m:ℚ) := by exact_mod_cast hm
    rw [endLoop, if_pos (by linarith : (0:ℚ) < (m:ℚ)/2)] at h
    by_cases hw : isWorkday (cur + 1) s
    · rw [if_pos hw] at h
      by_cases hm' : m = 1
      · subst hm'
        rw [if_pos (by norm_num : ((1:Nat):ℚ)/2 ≤ 1/2)] at h
        obtain ⟨h1, h2⟩ : cur + 1 = D ∧ Timing.AM = T := by simpa using h
        subst h1
        subst h2
        refine ⟨by omega, hw, ?_⟩
        rw [countWork_self, if_pos hw, if_pos rfl]
      · have hm2 : 2 ≤ m := by omega
        have hm2q : (2:ℚ) ≤ (m:ℚ) := by exact_mod_cast hm2
        rw [if_neg (by linarith : ¬ ((m:ℚ)/2 ≤ 1/2))] at h
        have hcast : (m:ℚ)/2 - 1 = ((m - 2 : Nat) : ℚ)/2 := by
          rw [Nat.cast_sub hm2]
          push_cast
          ring
        rw [hcast] at h
        by_cases hm2' : m = 2
        · subst hm2'
          rw [show (((2 - 2 : Nat)) : ℚ)/2 = 0 from by norm_num,
            endLoop_nonpos s fuel 0 (cur + 1) (by norm_num)] at h
          obtain ⟨h1, h2⟩ : cur + 1 = D ∧ Timing.PM = T := by simpa using h
          subst h1
          subst h2
          refine ⟨by omega, hw, ?_⟩
          rw [countWork_self, if_pos hw, if_neg (by simp : ¬ (Timing.PM = Timing.AM))]
        · have hm3 : 1 ≤ m - 2 := by omega
          obtain ⟨h1, h2, h3⟩ := ih (m - 2) (cur + 1) D T hm3 h
          refine ⟨by omega, h2, ?_⟩
          rw [countWork_step s (show cur + 1 ≤ D by omega), if_pos hw]
          cases T with
          | AM =>
            rw [if_pos rfl] at h3 ⊢
            omega
          | PM =>
            rw [if_neg (by simp : ¬ (Timing.PM = Timing.AM))] at h3 ⊢
            omega
    · rw [if_neg hw] at h
      obtain ⟨h1, h2, h3⟩ := ih m (cur + 1) D T hm h
      refine ⟨by omega, h2, ?_⟩
      rw [countWork_step s (show cur + 1 ≤ D by omega), if_neg hw]
      simpa using h3

/-- Claim C2 (counterexample): the round trip fails at span 0 on a working start
day: projecting span 0 from Monday 2024-02-19 AM returns the same point, but
the span calculator values the degenerate AM–AM range at 0.5, not 0. -/
theorem c2_roundtrip_counterexample :
    calculateEndDate 739240 0 weekendOffSettings Timing.AM 3
        = some (739240, Timing.AM) ∧
    calculateWorkdays 739240 739240 weekendOffSettings Timing.AM Timing.AM ≠ 0 := by
  constructor
  · rw [calculateEndDate, if_pos (by simp [isWorkday_d19]), if_pos rfl,
      if_pos (by norm_num : (0:ℚ) ≤ 1/2)]
  · rw [calculateWorkdays, if_neg (by omega), countWork_d19_d19,
      if_neg (by simp : ¬ (Timing.AM = Timing.PM)), if_pos rfl]
    norm_num [clampNonneg]

/-- Claim C2 (amended): the round trip `workdaySpan(start, projectEnd(start, s))
= s` holds for every start point, settings and half-unit span `s = n/2 ≥ 0.5`,
provided the start date is a working day or the start timing is AM (for a PM
start on a non-working day the unguarded 0.5 subtraction of C1 undercounts,
and at span 0 on a working start the calculator returns 0.5). -/
theorem c2_roundtrip_amended (s : AppSettings) (start : Int) (timing : Timing)
    (n fuel : Nat) (D : Int) (T : Timing)
    (hn : 1 ≤ n)
    (hok : isWorkday start s = true ∨ timing = Timing.AM)
    (h : calculateEndDate start ((n : ℚ)/2) s timing fuel = some (D, T)) :
    calculateWorkdays start D s timing T = (n : ℚ)/2 := by
  have hn1 : (1:ℚ) ≤ (n:ℚ) := by exact_mod_cast hn
  rw [calculateEndDate] at h
  by_cases hw : isWorkday start s
  · rw [if_pos hw] at h
    cases timing with
    | AM =>
      rw [if_pos rfl] at h
      by_cases hn' : n = 1
      · subst hn'
        rw [if_pos (by norm_num : ((1:Nat):ℚ)/2 ≤ 1/2)] at h
        obtain ⟨h1, h2⟩ : start = D ∧ Timing.AM = T := by simpa using h
        subst h1
        subst h2
        rw [calculateWorkdays, if_neg (by omega), countWork_self, if_pos hw,
          if_neg (by simp : ¬ (Timing.AM = Timing.PM)), if_pos rfl]
        norm_num [clampNonneg]
      · have hn2 : 2 ≤ n := by omega
        have hn2q : (2:ℚ) ≤ (n:ℚ) := by exact_mod_cast hn2
        rw [if_neg (by linarith : ¬ ((n:ℚ)/2 ≤ 1/2))] at h
        have hcast : (n:ℚ)/2 - 1 = ((n - 2 : Nat) : ℚ)/2 := by
          rw [Nat.cast_sub hn2]
          push_cast
          ring
        rw [hcast] at h
        by_cases hn2' : n = 2
        · subst hn2'
          rw [show (((2 - 2 : Nat)) : ℚ)/2 = 0 from by norm_num,
            endLoop_nonpos s fuel 0 start (by norm_num)] at h
          obtain ⟨h1, h2⟩ : start = D ∧ Timing.PM = T := by simpa using h
          subst h1
          subst h2
          rw [calculateWorkdays, if_neg (by omega), countWork_self, if_pos hw,
            if_neg (by simp : ¬ (Timing.AM = Timing.PM)),
            if_neg (by simp : ¬ (Timing.PM = Timing.AM))]
          norm_num [clampNonneg]
        · obtain ⟨h1, h2, h3⟩ := endLoop_spec s fuel (n - 2) start D T (by omega) h
          rw [calculateWorkdays, if_neg (by omega),
            countWork_step s (show start ≤ D by omega), if_pos hw,
            if_neg (by simp : ¬ (Timing.AM = Timing.PM))]
          cases T with
          | AM =>
            rw [if_pos rfl] at h3 ⊢
            have hq : 2 * (countWork s (start + 1) D : ℚ) + 1 = (n:ℚ) := by
              have hnat : 2 * countWork s (start + 1) D + 1 = n := by omega
              exact_mod_cast congrArg (Nat.cast : Nat → ℚ) hnat
            rw [clampNonneg_of_nonneg (by push_cast; linarith)]
            push_cast
            linarith
          | PM =>
            rw [if_neg (by simp : ¬ (Timing.PM = Timing.AM))] at h3 ⊢
            have hq : 2 * (countWork s (start + 1) D : ℚ) + 2 = (n:ℚ) := by
              have hnat : 2 * countWork s (start + 1) D + 2 = n := by omega
              exact_mod_cast congrArg (Nat.cast : Nat → ℚ) hnat
            rw [clampNonneg_of_nonneg (by push_cast; linarith)]
            push_cast
            linarith
    | PM =>
      rw [if_neg (by simp : ¬ (Timing.PM = Timing.AM))] at h
      by_cases hn' : n = 1
      · subst hn'
        rw [if_pos (by norm_num : ((1:Nat):ℚ)/2 ≤ 1/2)] at h
        obtain ⟨h1, h2⟩ : start = D ∧ Timing.PM = T := by simpa using h
        subst h1
        subst h2
        rw [calculateWorkdays, if_neg (by omega), countWork_self, if_pos hw,
          if_pos rfl, if_neg (by simp : ¬ (Timing.PM = Timing.AM))]
        norm_num [clampNonneg]
      · have hn2 : 2 ≤ n := by omega
        have hn2q : (2:ℚ) ≤ (n:ℚ) := by exact_mod_cast hn2
        rw [if_neg (by linarith : ¬ ((n:ℚ)/2 ≤ 1/2))] at h
        have hcast : (n:ℚ)/2 - 1/2 = ((n - 1 : Nat) : ℚ)/2 := by
          rw [Nat.cast_sub (by omega : 1 ≤ n)]
          push_cast
          ring
        rw [hcast] at h
        obtain ⟨h1, h2, h3⟩ := endLoop_spec s fuel (n - 1) start D T (by omega) h
        rw [calculateWorkdays, if_neg (by omega),
          countWork_step s (show start ≤ D by omega), if_pos hw, if_pos rfl]
        cases T with
        | AM =>
          rw [if_pos rfl] at h3 ⊢
          have hq : 2 * (countWork s (start + 1) D : ℚ) = (n:ℚ) := by
            have : 2 * countWork s (start + 1) D = n := by omega
            exact_mod_cast congrArg (Nat.cast : Nat → ℚ) this
          rw [clampNonneg_of_nonneg (by push_cast; linarith)]
          push_cast
          linarith
        | PM =>
          rw [if_neg (by simp : ¬ (Timing.PM = Timing.AM))] at h3 ⊢
          have hq : 2 * (countWork s (start + 1) D : ℚ) + 1 = (n:ℚ) := by
            have : 2 * countWork s (start + 1) D + 1 = n := by omega
            exact_mod_cast congrArg (Nat.cast : Nat → ℚ) this
          rw [clampNonneg_of_nonneg (by push_cast; linarith)]
          push_cast
          linarith
  · have htim : timing = Timing.AM := by
      rcases hok with hok | htim
      · exact absurd hok hw
      · exact htim
    subst htim
    rw [if_neg hw] at h
    obtain ⟨h1, h2, h3⟩ := endLoop_spec s fuel n start D T hn h
    rw [calculateWorkdays, if_neg (by omega),
      countWork_step s (show start ≤ D by omega), if_neg hw,
      if_neg (by simp : ¬ (Timing.AM = Timing.PM))]
    cases T with
    | AM =>
      rw [if_pos rfl] at h3 ⊢
      have hq : 2 * (countWork s (start + 1) D : ℚ) = (n:ℚ) + 1 := by
        have : 2 * countWork s (start + 1) D = n + 1 := by omega
        exact_mod_cast congrArg (Nat.cast : Nat → ℚ) this
      rw [clampNonneg_of_nonneg (by push_cast; linarith)]
      push_cast
      linarith
    | PM =>
      rw [if_neg (by simp : ¬ (Timing.PM = Timing.AM))] at h3 ⊢
      have hq : 2 * (countWork s (start + 1) D : ℚ) = (n:ℚ) := by
        have : 2 * countWork s (start + 1) D = n := by omega
        exact_mod_cast congrArg (Nat.cast : Nat → ℚ) this
      rw [clampNonneg_of_nonneg (by push_cast; linarith)]
      push_cast
      linarith

lemma eval_calcEnd_d19_am2 :
    calculateEndDate 739240 (((2:Nat) : ℚ)/2) weekendOffSettings Timing.AM 3
      = some (739240, Timing.PM) := by
  rw [calculateEndDate, if_pos (by simp [isWorkday_d19]), if_pos rfl,
    if_neg (by norm_num : ¬ (((2:Nat):ℚ)/2 ≤ 1/2)),
    show (((2:Nat):ℚ))/2 - 1 = 0 from by norm_num,
    endLoop_nonpos weekendOffSettings 3 0 739240 (by norm_num)]

/-- Witness for the amended C2: projecting span 1.0 (= 2 half-units) from
Monday 2024-02-19 AM gives Monday PM, and the span of Monday AM – Monday PM
is 1.0 again. -/
theorem c2_roundtrip_amended_witness :
    calculateEndDate 739240 (((2:Nat) : ℚ)/2) weekendOffSettings Timing.AM 3
        = some (739240, Timing.PM) ∧
    calculateWorkdays 739240 739240 weekendOffSettings Timing.AM Timing.PM
        = ((2:Nat) : ℚ)/2 :=
  ⟨eval_calcEnd_d19_am2,
   c2_roundtrip_amended weekendOffSettings 739240 Timing.AM 2 3 739240 Timing.PM
     (by omega) (Or.inl isWorkday_d19) eval_calcEnd_d19_am2⟩

/-- Claim C3 (code_bug): in a bulk `move` commit with aggregate delta +7 days
(grabbed item moved Sunday 2024-02-11 PM to Sunday 2024-02-18 PM), an item
with cached span 1.0 whose stepped start lands on the non-working Sunday
2024-02-18 PM is emitted with end Monday 2024-02-19 PM, and the recomputed
span of its new range is 0.5 — not the cached 1.0 the claim requires
(the same unguarded PM-start subtraction as C1). -/
theorem c3_bulk_move_span_eval :
    bulkMoveTotalDelta 739239 739232 Timing.PM Timing.PM = 7 ∧
    bulkMoveItem ⟨739232, 739233, Timing.PM, Timing.PM, 1⟩ 7 weekendOffSettings 1 5
        = some ((739239, Timing.PM), (739240, Timing.PM)) ∧
    calculateWorkdays 739239 739240 weekendOffSettings Timing.PM Timing.PM = 1/2 ∧
    (1/2 : ℚ) ≠ (1 : ℚ) := by
  refine ⟨?_, ?_, eval_span_d18_d19, by norm_num⟩
  · rw [bulkMoveTotalDelta]
    norm_num
  · have hst : addTimeUnits 739232 Timing.PM 7 1 = (739239, Timing.PM) := by
      rw [addTimeUnits, if_pos (by norm_num : (1:ℚ) ≥ 1)]
      norm_num [jsRound]
    simp only [bulkMoveItem]
    rw [hst, if_pos (by norm_num : (1:ℚ) ≠ 0), eval_calcEnd_d18_pm1]
    rfl

end Ganttmulti
